import Mathlib

/-!
Verification of the gambleboy slot-machine orchestrator.

Shallow embedding of the Python sources:
- `src/main.py`: `Button`, `was_just_pressed`, `get_payout`, `spin`,
  `handle_button_presses` (one loop iteration).
- `src/serial_communication.py`: `SerialCommunication` with
  `connect` / `disconnect` / `send_data` / `read_data`.
- `src/slot_machine_video.py`: `SlotMachineVideo.play_animation` and the
  three `show_*_animation` wrappers.

Effects (display calls, asyncio sleeps, random draws, serial sends) are made
explicit as an event trace; random draws are passed in as rational inputs
(the uniform sample each `random.random()` / `random.choices()` call would
consume); the serial transport is a list of wire events carried in the
connection state.
-/

/-- Observable events of one run: a display call for a frame, an asyncio
sleep of some duration in seconds, the win-gate uniform draw, the payout-table
uniform draw, and a line handed to `send_data`. -/
inductive Event where
  | display (frame : Nat)
  | sleep (secs : ℚ)
  | gateEval (r : ℚ)
  | payoutDraw (u : ℚ)
  | send (msg : String)
  deriving DecidableEq, Repr

/-- The line messages among a trace's events (what the orchestrator handed to
`send_data`, in order). -/
def sentLines (es : List Event) : List String :=
  es.filterMap (fun e => match e with | Event.send m => some m | _ => none)

/- ### src/main.py : Button -/

/-- State of `Button` (`src/main.py` lines 25-28): the pin number and the
`last_state` sample kept from the previous poll. -/
structure Button where
  pin : ℤ
  last_state : Bool
  deriving DecidableEq, Repr

/-- Model of `Button.was_just_pressed` (`src/main.py` lines 33-40). The raw GPIO
reading `is_pressed()` is passed in as `current`. Returns the poll result and
the updated button; both branches assign `last_state = current_state`. -/
def was_just_pressed (current : Bool) (b : Button) : Bool × Button :=
  if current && !b.last_state then
    (true, { b with last_state := current })
  else
    (false, { b with last_state := current })

/-- Repeated polling of `was_just_pressed` over a sequence of raw samples,
returning the list of poll results and the final button state. -/
def pollSeq (b : Button) : List Bool → List Bool × Button
  | [] => ([], b)
  | s :: rest =>
      let (r, b') := was_just_pressed s b
      let (rs, b'') := pollSeq b' rest
      (r :: rs, b'')

/- ### src/slot_machine_video.py -/

/-- State of `SlotMachineVideo` (`src/slot_machine_video.py` lines 8-17):
the three frame sequences loaded at startup. Frames are identified by `Nat`
ids. -/
structure SlotMachineVideo where
  win_frames : List Nat
  lose_frames : List Nat
  spin_frames : List Nat
  deriving DecidableEq, Repr

/-- Model of `SlotMachineVideo.play_animation` (`src/slot_machine_video.py` lines
36-45): empty frame list returns at once; otherwise each frame is displayed
and held for `1/fps` seconds. The result is the trace of display calls and
sleeps. -/
def play_animation (frames : List Nat) (fps : ℚ) : List Event :=
  if frames = [] then []
  else
    let frame_delay := 1 / fps
    frames.flatMap (fun f => [Event.display f, Event.sleep frame_delay])

/-- Model of `show_win_animation` (`src/slot_machine_video.py` lines 47-49), at the
default `fps=10`. -/
def show_win_animation (v : SlotMachineVideo) : List Event :=
  play_animation v.win_frames 10

/-- Model of `show_lose_animation` (`src/slot_machine_video.py` lines 51-53). -/
def show_lose_animation (v : SlotMachineVideo) : List Event :=
  play_animation v.lose_frames 10

/-- Model of `show_spin_animation` (`src/slot_machine_video.py` lines 55-57). -/
def show_spin_animation (v : SlotMachineVideo) : List Event :=
  play_animation v.spin_frames 10

/- ### src/main.py : payout engine and spin -/

/-- Constant `GAMBLE_AMT` (`src/main.py` line 19). -/
def GAMBLE_AMT : ℤ := 200

/-- Constant `GAMBLE_CHANCES` (`src/main.py` line 20). -/
def GAMBLE_CHANCES : List ℤ := [10, 50, 100, 200, 500, 1000, 10000, 100000]

/-- Constant `GAMBLE_WEIGHTS` (`src/main.py` line 21), the float literals read as
exact rationals. -/
def GAMBLE_WEIGHTS : List ℚ := [1/2, 1, 1/2, 2/5, 7/20, 1/10, 1/100, 1/1000]

/-- Weighted selection as performed by `random.choices(chances, weights)`:
with a uniform draw `u` over `[0, total weight)`, pick the first amount whose
cumulative-weight interval contains `u` (bisect_right over the cumulative
weights, clamped to the last index). -/
def weightedChoice : List ℤ → List ℚ → ℚ → ℤ
  | [], _, _ => 0
  | [c], _, _ => c
  | c :: _ :: _, [], _ => c
  | c :: c2 :: cs, w :: ws, u =>
      if u < w then c else weightedChoice (c2 :: cs) ws (u - w)

/-- Model of `get_payout` (`src/main.py` lines 80-82):
`random.choices(GAMBLE_CHANCES, weights=GAMBLE_WEIGHTS)[0]`, with the uniform
draw `u` over `[0, total weight)` passed in. -/
def get_payout (u : ℚ) : ℤ :=
  weightedChoice GAMBLE_CHANCES GAMBLE_WEIGHTS u

/-- Model of `spin` (`src/main.py` lines 84-93), with the `random.random()` gate draw
`rand` and the payout-table draw `u` passed in. Returns the event trace and
the payout. In the code the gate draw happens after the spin animation, and
on a win `get_payout()` is evaluated in the `return` statement, after
`show_win_animation()` has been awaited. -/
def spin (v : SlotMachineVideo) (rand u : ℚ) : List Event × ℤ :=
  let pre := show_spin_animation v ++ [Event.gateEval rand]
  if rand < 1/5 then
    (pre ++ show_win_animation v ++ [Event.payoutDraw u], get_payout u)
  else
    (pre ++ show_lose_animation v, 0)

/-- Modelled from the spec (section 4.4, claim C3's reading): the spin
presentation with the payout draw performed in step 2, before the win
animation of step 3. Used only to compare the spec's claimed step order with
the code's `spin`. -/
def specSpin (v : SlotMachineVideo) (rand u : ℚ) : List Event × ℤ :=
  let pre := show_spin_animation v ++ [Event.gateEval rand]
  if rand < 1/5 then
    (pre ++ [Event.payoutDraw u] ++ show_win_animation v, get_payout u)
  else
    (pre ++ show_lose_animation v, 0)

/- ### src/serial_communication.py -/

/-- A wire-side effect on the serial connection: one `write` call with the
exact bytes handed to it (as a UTF-8 string), or one `flush`. -/
inductive WireEvent where
  | write (bytes : String)
  | flush
  deriving DecidableEq, Repr

/-- The state of an underlying `serial.Serial` connection object: whether it
is open, the sequence of wire events performed on it, and the buffered
inbound lines (`in_waiting > 0` iff this list is nonempty; `readline`
consumes the head). -/
structure Conn where
  is_open : Bool
  events : List WireEvent
  inBuf : List String
  deriving DecidableEq, Repr

/-- State of `SerialCommunication` (`src/serial_communication.py` lines
6-12): configuration, the optional connection object, and the `connected`
flag. -/
structure SerialComm where
  port : String
  baud : ℤ
  timeout : ℚ
  connection : Option Conn
  connected : Bool
  deriving DecidableEq, Repr

/-- Model of `SerialCommunication.__init__` (`src/serial_communication.py` lines
7-12): `connection = None`, `connected = False`. -/
def SerialComm.init (port : String) (baud : ℤ) (timeout : ℚ) : SerialComm :=
  { port := port, baud := baud, timeout := timeout,
    connection := none, connected := false }

/-- Model of `SerialCommunication.connect` (`src/serial_communication.py` lines
14-28). Whether `serial.Serial(...)` succeeds is external; its outcome is
passed in as `result` (`some c`: the freshly opened connection object;
`none`: the constructor raised). On success the connection is stored and
`connected = True`; on failure `connected = False` and `connection` is left
as it was (the assignment never ran). Returns the boolean result and the new
state. -/
def SerialComm.connect (s : SerialComm) (result : Option Conn) :
    Bool × SerialComm :=
  match result with
  | some c => (true, { s with connection := some c, connected := true })
  | none => (false, { s with connected := false })

/-- Model of `SerialCommunication.disconnect` (`src/serial_communication.py` lines
30-35): if a connection object exists and is open, close it and set
`connected = False`; otherwise a no-op. The connection object is kept (only
marked closed). -/
def SerialComm.disconnect (s : SerialComm) : SerialComm :=
  match s.connection with
  | some c =>
      if c.is_open then
        { s with connection := some { c with is_open := false },
                 connected := false }
      else s
  | none => s

/-- Model of `SerialCommunication.send_data` (`src/serial_communication.py` lines
37-50): if `not connected or not connection`, print a diagnostic and return
`False` without touching the transport; otherwise write `data + '\n'` and
flush, and return `True`. Write failures are external exceptions, not
modelled: the model's transport writes always succeed. -/
def SerialComm.send_data (s : SerialComm) (data : String) :
    Bool × SerialComm :=
  match s.connected, s.connection with
  | true, some c =>
      let c' := { c with
        events := c.events ++ [WireEvent.write (data ++ "\n"), WireEvent.flush] }
      (true, { s with connection := some c' })
  | _, _ => (false, s)

/-- Model of `SerialCommunication.read_data` (`src/serial_communication.py` lines
56-68): if not connected (or no connection object), return `None`; if
nothing is buffered (`in_waiting == 0`), return `None`; otherwise consume one
line, strip it, and decode it. `json.loads` is external and passed in as
`decode`; a raised `json.JSONDecodeError` (malformed line) is `decode _ =
none`, and the `except` branch prints and returns `None`. An empty stripped
line also returns `None`. -/
def SerialComm.read_data {J : Type} (decode : String → Option J)
    (s : SerialComm) : Option J × SerialComm :=
  match s.connected, s.connection with
  | true, some c =>
      match c.inBuf with
      | [] => (none, s)
      | line :: rest =>
          let s' := { s with connection := some { c with inBuf := rest } }
          let stripped := line.trim
          if stripped = "" then (none, s')
          else (decode stripped, s')
  | _, _ => (none, s)

/-- The invariant of claim C10: whenever the `connected` flag is set, the
`connection` field holds an object. -/
def scInv (s : SerialComm) : Prop :=
  s.connected = true → s.connection.isSome = true

instance (s : SerialComm) : Decidable (scInv s) := by
  unfold scInv; infer_instance

/- ### src/main.py : orchestrator loop body -/

/-- One iteration of the `while True` loop of `handle_button_presses`
(`src/main.py` lines 54-78), with the raw button reading and the turn's two
random draws passed in. Produces the iteration's event trace (serial sends,
presentation events, sleeps) and the updated button and serial states. On a
rising edge: send `"GAMBLE 200"`, run `spin`, send `"WIN <payout>"` if the
payout is positive else `"LOSE"`, sleep 1 s (cooldown); every iteration ends
with the 50 ms polling sleep. -/
def handle_button_presses_iter (btn : Button) (raw : Bool)
    (v : SlotMachineVideo) (rand u : ℚ) (sc : SerialComm) :
    List Event × Button × SerialComm :=
  let (pressed, btn') := was_just_pressed raw btn
  if pressed then
    let gambleMsg := "GAMBLE " ++ toString GAMBLE_AMT
    let sc1 := (sc.send_data gambleMsg).2
    let (spinEv, payout) := spin v rand u
    let resultMsg := if 0 < payout then "WIN " ++ toString payout else "LOSE"
    let sc2 := (sc1.send_data resultMsg).2
    (Event.send gambleMsg :: spinEv ++
       [Event.send resultMsg, Event.sleep 1, Event.sleep (1/20)],
     btn', sc2)
  else
    ([Event.sleep (1/20)], btn', sc)


/- ### Helper lemmas -/

/-- Evaluation of one poll: the result is the rising-edge test and the new
state stores the current sample, in both branches. -/
theorem was_just_pressed_eq (s : Bool) (b : Button) :
    was_just_pressed s b = (s && !b.last_state, { b with last_state := s }) := by
  unfold was_just_pressed
  split <;> simp_all

/-- The button state resulting from a poll sequence only depends on the
samples from the first one onwards. -/
theorem pollSeq_cons_snd (b : Button) (s : Bool) (rest : List Bool) :
    (pollSeq b (s :: rest)).2 = (pollSeq { b with last_state := s } rest).2 := by
  simp [pollSeq, was_just_pressed_eq]

/-- After a nonempty poll sequence the stored sample is the last raw
reading. -/
theorem pollSeq_snd_last_state (b : Button) (samples : List Bool)
    (h : samples ≠ []) :
    (pollSeq b samples).2.last_state = samples.getLast h := by
  induction samples generalizing b with
  | nil => exact absurd rfl h
  | cons s rest ih =>
      cases rest with
      | nil => simp [pollSeq, was_just_pressed_eq]
      | cons s2 rest2 =>
          rw [pollSeq_cons_snd, List.getLast_cons (by simp)]
          exact ih _ (by simp)

/-- The sends among an appended trace. -/
theorem sentLines_append (a b : List Event) :
    sentLines (a ++ b) = sentLines a ++ sentLines b := by
  simp [sentLines]

/-- A frame loop emits only display and sleep events, no sends. -/
theorem sentLines_frames (d : ℚ) (fr : List Nat) :
    sentLines (fr.flatMap (fun f => [Event.display f, Event.sleep d])) = [] := by
  induction fr with
  | nil => rfl
  | cons f fr ih =>
      rw [List.flatMap_cons, sentLines_append, ih]
      rfl

/-- Animation playback performs no serial sends. -/
theorem sentLines_play_animation (frames : List Nat) (fps : ℚ) :
    sentLines (play_animation frames fps) = [] := by
  unfold play_animation
  split
  · rfl
  · exact sentLines_frames (1 / fps) frames

/-- The spin presentation performs no serial sends. -/
theorem sentLines_spin (v : SlotMachineVideo) (rand u : ℚ) :
    sentLines (spin v rand u).1 = [] := by
  unfold spin show_spin_animation show_win_animation show_lose_animation
  split <;>
    simp only [sentLines_append, sentLines_play_animation,
      List.nil_append, List.append_nil] <;> rfl

/-- Weighted selection over a nonempty list of amounts returns one of the
amounts. -/
theorem weightedChoice_mem (cs : List ℤ) (ws : List ℚ) (u : ℚ)
    (h : cs ≠ []) : weightedChoice cs ws u ∈ cs := by
  induction cs generalizing ws u with
  | nil => exact absurd rfl h
  | cons c cs ih =>
      cases cs with
      | nil => simp [weightedChoice]
      | cons c2 cs' =>
          cases ws with
          | nil => simp [weightedChoice]
          | cons w ws' =>
              simp only [weightedChoice]
              split
              · exact List.mem_cons_self _ _
              · exact List.mem_cons_of_mem _ (ih ws' (u - w) (by simp))

/- ### Claim theorems -/

/-- Claim C1: for every initial button state and every sequence of raw input
samples, the sequence of `was_just_pressed` results equals the pointwise
rising-edge test: poll `i` returns true iff sample `i` reads pressed and the
immediately preceding poll's sample (the stored `last_state` for the first
poll) read not-pressed; every other poll returns false, so two consecutive
pressed samples report an edge exactly once. -/
theorem pollSeq_rising_edge_iff (b : Button) (samples : List Bool) :
    (pollSeq b samples).1 =
      List.zipWith (fun cur prev => cur && !prev) samples
        (b.last_state :: samples) := by
  induction samples generalizing b with
  | nil => rfl
  | cons s rest ih =>
      simp only [pollSeq, was_just_pressed_eq, List.zipWith]
      exact congrArg _ (ih _)

/-- Claim C2: a turn triggered by a rising edge produces a trace that sends
the wager notice `GAMBLE 200` first, then runs the spin presentation (which
sends nothing), then sends `WIN <payout>` when the payout is positive and
`LOSE` otherwise, followed only by the cooldown and polling sleeps; the
lines sent over the link during the whole iteration are exactly those
two, in that order. -/
theorem handle_button_presses_turn_messages (btn : Button)
    (v : SlotMachineVideo) (rand u : ℚ) (sc : SerialComm)
    (h : btn.last_state = false) :
    (handle_button_presses_iter btn true v rand u sc).1 =
      Event.send "GAMBLE 200" :: (spin v rand u).1 ++
        [Event.send (if 0 < (spin v rand u).2
                     then "WIN " ++ toString (spin v rand u).2 else "LOSE"),
         Event.sleep 1, Event.sleep (1/20)] ∧
    sentLines (handle_button_presses_iter btn true v rand u sc).1 =
      ["GAMBLE 200",
       if 0 < (spin v rand u).2
       then "WIN " ++ toString (spin v rand u).2 else "LOSE"] := by
  have hg : ("GAMBLE " ++ toString GAMBLE_AMT) = "GAMBLE 200" := rfl
  have htrace :
      (handle_button_presses_iter btn true v rand u sc).1 =
        Event.send "GAMBLE 200" :: (spin v rand u).1 ++
          [Event.send (if 0 < (spin v rand u).2
                       then "WIN " ++ toString (spin v rand u).2 else "LOSE"),
           Event.sleep 1, Event.sleep (1/20)] := by
    unfold handle_button_presses_iter
    rcases hsp : spin v rand u with ⟨ev, p⟩
    simp [was_just_pressed_eq, h, hg, hsp]
  refine ⟨htrace, ?_⟩
  rw [htrace]
  rw [show Event.send "GAMBLE 200" :: (spin v rand u).1 ++
        [Event.send (if 0 < (spin v rand u).2
                     then "WIN " ++ toString (spin v rand u).2 else "LOSE"),
         Event.sleep 1, Event.sleep (1/20)] =
      [Event.send "GAMBLE 200"] ++ (spin v rand u).1 ++
        [Event.send (if 0 < (spin v rand u).2
                     then "WIN " ++ toString (spin v rand u).2 else "LOSE"),
         Event.sleep 1, Event.sleep (1/20)] from by simp]
  rw [sentLines_append, sentLines_append, sentLines_spin]
  rfl

/-- Witness for claim C2: a losing turn from a concrete idle button sends
exactly `GAMBLE 200` then `LOSE`. -/
theorem handle_button_presses_turn_messages_witness :
    sentLines (handle_button_presses_iter ⟨20, false⟩ true ⟨[], [], []⟩
      (1/2) 0 (SerialComm.init "/dev/ttyACM0" 115200 1)).1 =
      ["GAMBLE 200", "LOSE"] := by
  have h := handle_button_presses_turn_messages ⟨20, false⟩ ⟨[], [], []⟩
    (1/2) 0 (SerialComm.init "/dev/ttyACM0" 115200 1) rfl
  rw [h.2]
  norm_num [spin, get_payout]

/-- Counterexample for claim C3: with a nonempty win animation and a winning
gate draw, the code's `spin` trace differs from the spec's claimed step order
(payout draw in step 2, before the win animation): the code draws the payout
only after the win animation has completed. -/
theorem spin_payout_draw_order_counterexample :
    spin ⟨[7], [], [9]⟩ 0 0 ≠ specSpin ⟨[7], [], [9]⟩ 0 0 := by
  have hg : ((0:ℚ) < 1/5) := by norm_num
  simp [spin, specSpin, hg, show_spin_animation, show_win_animation,
    show_lose_animation, play_animation]

/-- Claim C3 as amended: `spin` performs its steps strictly in order — the
spin animation to completion, then the win-gate evaluation, then the win
animation if won (otherwise the lose animation), then, if won, the payout
draw — and returns the resulting payout. -/
theorem spin_sequencing_amended (v : SlotMachineVideo) (rand u : ℚ) :
    spin v rand u =
      (show_spin_animation v ++ [Event.gateEval rand] ++
         (if rand < 1/5 then show_win_animation v ++ [Event.payoutDraw u]
          else show_lose_animation v),
       if rand < 1/5 then get_payout u else 0) := by
  unfold spin
  split <;> simp_all [List.append_assoc]

/-- Claim C4: with the gate draw uniform over `[0,1)` and the table draw
uniform over `[0, total weight)`, a turn wins iff the gate draw is below the
fixed win probability `1/5`; a winning payout is drawn from the fixed table
so it is one of the amounts of `GAMBLE_CHANCES` and positive; a losing turn
pays `0`; hence the payout is always `≥ 0` and positive exactly when the win
gate succeeded. -/
theorem spin_win_gate_payout (v : SlotMachineVideo) (rand u : ℚ)
    (_h0 : 0 ≤ rand) (_h1 : rand < 1) (_h2 : 0 ≤ u)
    (_h3 : u < GAMBLE_WEIGHTS.sum) :
    (spin v rand u).2 = (if rand < 1/5 then get_payout u else 0) ∧
    get_payout u ∈ GAMBLE_CHANCES ∧
    0 < get_payout u ∧
    0 ≤ (spin v rand u).2 ∧
    (0 < (spin v rand u).2 ↔ rand < 1/5) := by
  have hmem : get_payout u ∈ GAMBLE_CHANCES :=
    weightedChoice_mem _ _ u (by simp [GAMBLE_CHANCES])
  have hpos : 0 < get_payout u := by
    have hall : ∀ c ∈ GAMBLE_CHANCES, (0 : ℤ) < c := by decide
    exact hall _ hmem
  have hsnd : (spin v rand u).2 = (if rand < 1/5 then get_payout u else 0) := by
    unfold spin
    split <;> simp_all
  refine ⟨hsnd, hmem, hpos, ?_, ?_⟩
  · rw [hsnd]; split <;> omega
  · rw [hsnd]; split <;> simp_all

/-- Witness for claim C4 at a winning gate draw of 0 and table draw of 0. -/
theorem spin_win_gate_payout_witness :
    (spin ⟨[], [], []⟩ 0 0).2 = (if (0:ℚ) < 1/5 then get_payout 0 else 0) ∧
    get_payout 0 ∈ GAMBLE_CHANCES ∧
    0 < get_payout 0 ∧
    0 ≤ (spin ⟨[], [], []⟩ 0 0).2 ∧
    (0 < (spin ⟨[], [], []⟩ 0 0).2 ↔ (0:ℚ) < 1/5) :=
  spin_win_gate_payout ⟨[], [], []⟩ 0 0 (by norm_num) (by norm_num)
    (by norm_num) (by norm_num [GAMBLE_WEIGHTS])

/-- Claim C5: for every string, `send_data` while connected succeeds and
performs exactly one transport write of the string's bytes followed by a
single newline terminator, then one flush; no partial line is left pending
across calls. -/
theorem send_data_connected_writes_line (s : SerialComm) (c : Conn)
    (data : String) (h1 : s.connected = true) (h2 : s.connection = some c) :
    (s.send_data data).1 = true ∧
    (s.send_data data).2 =
      { s with connection := some { c with
          events := c.events ++
            [WireEvent.write (data ++ "\n"), WireEvent.flush] } } := by
  unfold SerialComm.send_data
  rw [h1, h2]
  exact ⟨rfl, rfl⟩

/-- Witness for claim C5: sending `LOSE` while connected puts exactly the
bytes `LOSE\n` on the wire. -/
theorem send_data_connected_writes_line_witness :
    ((SerialComm.mk "/dev/ttyACM0" 115200 1 (some ⟨true, [], []⟩) true).send_data "LOSE").1 = true ∧
    ((SerialComm.mk "/dev/ttyACM0" 115200 1 (some ⟨true, [], []⟩) true).send_data "LOSE").2 =
      SerialComm.mk "/dev/ttyACM0" 115200 1
        (some ⟨true, [WireEvent.write "LOSE\n", WireEvent.flush], []⟩) true := by
  have h := send_data_connected_writes_line
    (SerialComm.mk "/dev/ttyACM0" 115200 1 (some ⟨true, [], []⟩) true)
    ⟨true, [], []⟩ "LOSE" rfl rfl
  exact ⟨h.1, by simp [h.2]⟩

/-- Claim C6: for every string, `send_data` while the link is not connected
returns the not-connected failure (`False`) and leaves the state — in
particular the connection object and its wire trace — untouched. -/
theorem send_data_not_connected (s : SerialComm) (data : String)
    (h : s.connected = false) :
    s.send_data data = (false, s) := by
  unfold SerialComm.send_data
  rw [h]

/-- Witness for claim C6 on the freshly initialised, never-connected
state. -/
theorem send_data_not_connected_witness :
    (SerialComm.init "/dev/ttyACM0" 115200 1).send_data "GAMBLE 200" =
      (false, SerialComm.init "/dev/ttyACM0" 115200 1) :=
  send_data_not_connected (SerialComm.init "/dev/ttyACM0" 115200 1)
    "GAMBLE 200" rfl

/-- Claim C7: when a buffered inbound line fails to decode as structured
data, `read_data` returns `None`; the malformed line is consumed from the
buffer (discarded, never retried), nothing else in the state changes, and no
error propagates to the caller (the model function is total). -/
theorem read_data_malformed_discards {J : Type} (decode : String → Option J)
    (s : SerialComm) (c : Conn) (line : String) (rest : List String)
    (h1 : s.connected = true) (h2 : s.connection = some c)
    (h3 : c.inBuf = line :: rest) (h4 : decode line.trim = none) :
    SerialComm.read_data decode s =
      (none, { s with connection := some { c with inBuf := rest } }) := by
  obtain ⟨sp, sb, st, conn, scon⟩ := s
  obtain ⟨co, cev, cbuf⟩ := c
  simp only at h1 h2 h3
  subst h1
  subst h2
  subst h3
  by_cases he : line.trim = "" <;>
    simp [SerialComm.read_data, he, h4]

/-- Witness for claim C7: a malformed buffered line is dropped and `none` is
returned. -/
theorem read_data_malformed_discards_witness :
    SerialComm.read_data (fun _ => (none : Option Unit))
      (SerialComm.mk "/dev/ttyACM0" 115200 1
        (some ⟨true, [], ["notjson", "rest"]⟩) true) =
      (none, SerialComm.mk "/dev/ttyACM0" 115200 1
        (some ⟨true, [], ["rest"]⟩) true) := by
  have h := read_data_malformed_discards (fun _ => (none : Option Unit))
    (SerialComm.mk "/dev/ttyACM0" 115200 1
      (some ⟨true, [], ["notjson", "rest"]⟩) true)
    ⟨true, [], ["notjson", "rest"]⟩ "notjson" ["rest"] rfl rfl rfl rfl
  rw [h]

/-- Claim C10: the invariant "connected implies a connection object is
present" holds of the initial state and is preserved by `connect`,
`disconnect`, `send_data` and `read_data`; and whenever the flag is down the
guards of `send_data` and `read_data` return `False` resp. `None` with the
state untouched, so neither operation dereferences a missing connection. -/
theorem serial_comm_invariant {J : Type} (s : SerialComm) (p : String)
    (b : ℤ) (t : ℚ) (r : Option Conn) (d : String)
    (decode : String → Option J) (hinv : scInv s) :
    scInv (SerialComm.init p b t) ∧
    scInv (s.connect r).2 ∧
    scInv s.disconnect ∧
    scInv (s.send_data d).2 ∧
    scInv (SerialComm.read_data decode s).2 ∧
    (s.connected = false →
      s.send_data d = (false, s) ∧
      SerialComm.read_data decode s = (none, s)) := by
  obtain ⟨sp, sb, st, conn, scon⟩ := s
  simp only [scInv] at hinv
  refine ⟨?_, ?_, ?_, ?_, ?_, ?_⟩
  · simp [scInv, SerialComm.init]
  · cases r <;> simp [scInv, SerialComm.connect]
  · cases conn with
    | none => exact hinv
    | some c =>
        cases hco : c.is_open <;>
          simp [scInv, SerialComm.disconnect, hco]
  · cases scon <;> cases conn <;>
      simp_all [scInv, SerialComm.send_data]
  · cases scon with
    | false => cases conn <;> simp [scInv, SerialComm.read_data]
    | true =>
        cases conn with
        | none => simp at hinv
        | some c =>
            obtain ⟨co, cev, cbuf⟩ := c
            cases cbuf with
            | nil => simp [scInv, SerialComm.read_data]
            | cons l rest =>
                simp only [SerialComm.read_data]
                split <;> simp [scInv]
  · intro hcf
    simp only at hcf
    subst hcf
    cases conn <;>
      exact ⟨by simp [SerialComm.send_data], by simp [SerialComm.read_data]⟩

/-- Witness for claim C10 at the initial (disconnected) state. -/
theorem serial_comm_invariant_witness :
    scInv (SerialComm.init "p" 1 1) ∧
    scInv ((SerialComm.init "/dev/ttyACM0" 115200 1).connect (some ⟨true, [], []⟩)).2 ∧
    scInv (SerialComm.init "/dev/ttyACM0" 115200 1).disconnect ∧
    scInv ((SerialComm.init "/dev/ttyACM0" 115200 1).send_data "LOSE").2 ∧
    scInv (SerialComm.read_data (fun _ => (none : Option Unit))
      (SerialComm.init "/dev/ttyACM0" 115200 1)).2 ∧
    ((SerialComm.init "/dev/ttyACM0" 115200 1).connected = false →
      (SerialComm.init "/dev/ttyACM0" 115200 1).send_data "LOSE" =
        (false, SerialComm.init "/dev/ttyACM0" 115200 1) ∧
      SerialComm.read_data (fun _ => (none : Option Unit))
        (SerialComm.init "/dev/ttyACM0" 115200 1) =
        (none, SerialComm.init "/dev/ttyACM0" 115200 1)) :=
  serial_comm_invariant (SerialComm.init "/dev/ttyACM0" 115200 1) "p" 1 1
    (some ⟨true, [], []⟩) "LOSE" (fun _ => (none : Option Unit))
    (by intro h; simp [SerialComm.init] at h)

/-- Claim C8: playing an animation whose frame sequence is empty completes
immediately with an empty trace — no display calls and no frame delays —
for every frame rate; the empty sequence is a valid no-op, not an error. -/
theorem play_animation_empty (fps : ℚ) : play_animation [] fps = [] := rfl

/-- Claim C9: every call to `was_just_pressed` sets `last_state` to the
current raw reading, unconditionally and regardless of the returned value;
consequently after any nonempty sequence of polls `last_state` equals the
reading of the immediately preceding poll, and no older history is kept. -/
theorem was_just_pressed_updates_last_state (b : Button) (s : Bool)
    (samples : List Bool) (h : samples ≠ []) :
    (was_just_pressed s b).2.last_state = s ∧
    (pollSeq b samples).2.last_state = samples.getLast h :=
  ⟨by rw [was_just_pressed_eq], pollSeq_snd_last_state b samples h⟩

/-- Witness for claim C9 at a concrete button and sample sequence. -/
theorem was_just_pressed_updates_last_state_witness :
    (was_just_pressed true ⟨20, false⟩).2.last_state = true ∧
    (pollSeq ⟨20, false⟩ [false, true]).2.last_state = true :=
  was_just_pressed_updates_last_state ⟨20, false⟩ true [false, true]
    (by decide)
